import Mathlib

/-!
Verification of the export/extraction core of tap-marketo (singer-io/tap-marketo).

The development shallowly embeds the checkpoint/window/retry logic of
`tap_marketo/sync.py` and `tap_marketo/client.py`:

* wall-clock instants are natural numbers counting microseconds since the
  epoch (pendulum datetimes carry microsecond precision; stripping the
  microseconds — `replace(microsecond=0)` in the source — becomes rounding
  down to a multiple of one million);
* Python values flowing through the record shaper become the inductive
  type `PyVal`; a Python `None` result is `Option.none`; a raised Python
  exception becomes the `Except.error` branch;
* the outside world (Marketo's clock, export ids, CSV rows, poll statuses,
  HTTP outcomes) is an explicit environment parameter, so the state-machine
  code of the tap itself stays deterministic and executable.
-/

set_option autoImplicit false

namespace TapMarketo

/-! ## Time model (microseconds since epoch) -/

def usPerSec : Nat := 1000000

def usPerDay : Nat := 86400 * usPerSec

/-- Model of pendulum's `replace(microsecond=0)`: round an instant down to a
whole second. -/
def truncSec (t : Nat) : Nat := t / usPerSec * usPerSec

/-- Embeds `get_export_end` (tap_marketo/sync.py):

    def get_export_end(export_start, end_days=MAX_EXPORT_DAYS):
        export_end = export_start.add(days=end_days)
        if export_end >= pendulum.utcnow():
            export_end = pendulum.utcnow()
        return export_end.replace(microsecond=0)

`nowUs` stands for the value of `pendulum.utcnow()` at the moment of the
call (the two adjacent calls in the source are modelled as one reading). -/
def get_export_end (export_start nowUs end_days : Nat) : Nat :=
  let export_end := export_start + end_days * usPerDay
  let export_end := if nowUs ≤ export_end then nowUs else export_end
  truncSec export_end

theorem truncSec_le (t : Nat) : truncSec t ≤ t :=
  Nat.div_mul_le_self t usPerSec

theorem truncSec_mono {a b : Nat} (h : a ≤ b) : truncSec a ≤ truncSec b := by
  simp only [truncSec, usPerSec] at *
  omega

theorem lt_truncSec_add (t : Nat) : t < truncSec t + usPerSec := by
  simp only [truncSec, usPerSec]
  omega

theorem truncSec_idem (t : Nat) : truncSec (truncSec t) = truncSec t := by
  simp only [truncSec, usPerSec]
  omega

/-! ## Record shaper (`format_value` / `format_values`, tap_marketo/sync.py) -/

/-- A Python value as it appears in a raw row (CSV rows carry strings; JSON
rows may carry numbers and booleans).  `PyVal.none` is Python's `None`.
Python floats are modelled as exact rationals; a decimal literal denotes the
decimal value it spells (representative values in the theorems stay within
the range where a binary double is exact as well). -/
inductive PyVal where
  | none
  | str (s : String)
  | int (n : Int)
  | float (q : Rat)
  | bool (b : Bool)
deriving Repr, DecidableEq

/-- The `_type` entry produced by `get_output_typemap`: a plain string for a
single non-null type, a tuple of strings otherwise.  A tuple compares unequal
to every string, so `format_value` falls through to its final `return value`
for tuple-typed fields, exactly as in the source. -/
inductive OutType where
  | single (t : String)
  | multi (ts : List String)
deriving Repr, DecidableEq

/-- Python's `str()` on the values above (`str(True) = "True"` etc.).  The
float case prints the rational; it is not exercised by any claim. -/
def py_str : PyVal → String
  | .none => "None"
  | .str s => s
  | .int n => toString n
  | .float q => toString q
  | .bool b => if b then "True" else "False"

/-- Python's `str.lower()` (ASCII suffices for the "true" comparison). -/
def py_lower (s : String) : String :=
  String.mk (s.toList.map Char.toLower)

def digitsVal (cs : List Char) : Nat :=
  cs.foldl (fun a c => a * 10 + (c.toNat - 48)) 0

/-- Model of Python's `float(s)` on plain decimal literals: optional sign,
digits, optional fractional part.  Exponent, infinity and NaN spellings of
the stdlib parser are outside the subset the tap exchanges and yield
`Option.none` (a raised ValueError). -/
def parse_decimal (s : String) : Option Rat :=
  let cs := ((s.toList.dropWhile Char.isWhitespace).reverse.dropWhile Char.isWhitespace).reverse
  let sgnAndDigits : Bool × List Char :=
    match cs with
    | '-' :: rest => (true, rest)
    | '+' :: rest => (false, rest)
    | _ => (false, cs)
  let neg := sgnAndDigits.1
  let cs := sgnAndDigits.2
  let intPart := cs.takeWhile Char.isDigit
  let rest := cs.dropWhile Char.isDigit
  let mag : Option Rat :=
    match rest with
    | [] => if intPart.isEmpty then Option.none else some (mkRat (digitsVal intPart) 1)
    | '.' :: rest2 =>
      let fracPart := rest2.takeWhile Char.isDigit
      let rest3 := rest2.dropWhile Char.isDigit
      if rest3 = [] ∧ ¬(intPart.isEmpty ∧ fracPart.isEmpty) then
        some (mkRat (digitsVal intPart * 10 ^ fracPart.length + digitsVal fracPart)
          (10 ^ fracPart.length))
      else Option.none
    | _ => Option.none
  mag.map (fun q => if neg then Rat.neg q else q)

/-- Python's `float(value)` over `PyVal` (`float(True) = 1.0`; `float(None)`
raises, here `Option.none`). -/
def py_float : PyVal → Option Rat
  | .none => Option.none
  | .str s => parse_decimal s
  | .int n => some (mkRat n 1)
  | .float q => some q
  | .bool b => some (if b then mkRat 1 1 else mkRat 0 1)

/-- Python's `int()` on a float: truncation toward zero
(t-division of the numerator by the denominator). -/
def rat_trunc (q : Rat) : Int :=
  Int.tdiv q.num q.den

/-- A UTC datetime at second precision, the subset pendulum objects the tap
exchanges (both window boundaries and CSV date-times are second-truncated). -/
structure PDateTime where
  year : Nat
  month : Nat
  day : Nat
  hour : Nat
  minute : Nat
  second : Nat
deriving Repr, DecidableEq

def twoDigits (a b : Char) : Nat := (a.toNat - 48) * 10 + (b.toNat - 48)

/-- Model of `pendulum.parse` (external pendulum library) on the ISO-8601
subset the tap exchanges: `YYYY-MM-DDTHH:MM:SS` with an optional `Z` or
`+00:00` suffix.  Any other shape is a raised ParserError (`Option.none`). -/
def pendulum_parse_dt (s : String) : Option PDateTime :=
  match s.toList with
  | y1 :: y2 :: y3 :: y4 :: '-' :: m1 :: m2 :: '-' :: d1 :: d2 :: 'T' ::
    h1 :: h2 :: ':' :: n1 :: n2 :: ':' :: s1 :: s2 :: zone =>
    if [y1, y2, y3, y4, m1, m2, d1, d2, h1, h2, n1, n2, s1, s2].all Char.isDigit ∧
        (zone = [] ∨ zone = ['Z'] ∨ zone = ['+', '0', '0', ':', '0', '0']) then
      let dt : PDateTime :=
        { year := digitsVal [y1, y2, y3, y4]
          month := twoDigits m1 m2
          day := twoDigits d1 d2
          hour := twoDigits h1 h2
          minute := twoDigits n1 n2
          second := twoDigits s1 s2 }
      if 1 ≤ dt.month ∧ dt.month ≤ 12 ∧ 1 ≤ dt.day ∧ dt.day ≤ 31 ∧
          dt.hour ≤ 23 ∧ dt.minute ≤ 59 ∧ dt.second ≤ 59 then
        some dt
      else Option.none
    else Option.none
  | _ => Option.none

def pad2 (n : Nat) : String :=
  if n < 10 then "0" ++ toString n else toString n

/-- Pendulum's `isoformat()` for a UTC datetime: `YYYY-MM-DDTHH:MM:SS+00:00`. -/
def iso_format (dt : PDateTime) : String :=
  toString dt.year ++ "-" ++ pad2 dt.month ++ "-" ++ pad2 dt.day ++ "T" ++
    pad2 dt.hour ++ ":" ++ pad2 dt.minute ++ ":" ++ pad2 dt.second ++ "+00:00"

/-- Embeds `format_value` (tap_marketo/sync.py):

    if value is None or value == '' or value == 'null':
        return None
    if _type == "string":   return str(value)
    if _type == "date-time": return pendulum.parse(value).isoformat()
    if _type == "integer":  return int(float(value))
    if _type == "number":   return float(value)
    if _type == "boolean":  return str(value).lower() == "true"
    return value

`.ok Option.none` is Python `None`; `.error` is a raised exception
(ParserError / ValueError on an unparseable cell). -/
def format_value (value : PyVal) (ty : OutType) : Except String (Option PyVal) :=
  if value = .none ∨ value = .str "" ∨ value = .str "null" then
    .ok Option.none
  else if ty = .single "string" then
    .ok (some (.str (py_str value)))
  else if ty = .single "date-time" then
    match value with
    | .str s =>
      match pendulum_parse_dt s with
      | some dt => .ok (some (.str (iso_format dt)))
      | Option.none => .error "ParserError"
    | _ => .error "ParserError"
  else if ty = .single "integer" then
    match py_float value with
    | some q => .ok (some (.int (rat_trunc q)))
    | Option.none => .error "ValueError"
  else if ty = .single "number" then
    match py_float value with
    | some q => .ok (some (.float q))
    | Option.none => .error "ValueError"
  else if ty = .single "boolean" then
    .ok (some (.bool (py_lower (py_str value) == "true")))
  else
    .ok (some value)

/-- Python's `row.get(field)`: the stored value, or `None` when absent. -/
def row_get (row : List (String × PyVal)) (f : String) : PyVal :=
  match row.find? (fun p => p.1 = f) with
  | some p => p.2
  | Option.none => .none

/-- Embeds `format_values` (tap_marketo/sync.py): the dict comprehension

    {field: format_value(row.get(field), field_type)
     for field, field_type in output_typemap.items()}

evaluated in item order, propagating the first raised exception.  Note that
the comprehension binds every typemap field as a key, even when the coerced
value is `None`. -/
def format_values (tm : List (String × OutType)) (row : List (String × PyVal)) :
    Except String (List (String × Option PyVal)) :=
  match tm with
  | [] => .ok []
  | (f, ty) :: rest =>
    match format_value (row_get row f) ty, format_values rest row with
    | .ok v, .ok r => .ok ((f, v) :: r)
    | .error e, _ => .error e
    | _, .error e => .error e

theorem format_values_keeps_null_keys
    (tm : List (String × OutType)) (row : List (String × PyVal))
    (f : String) (ty : OutType) (rec : List (String × Option PyVal))
    (hmem : (f, ty) ∈ tm)
    (hval : row_get row f = .none ∨ row_get row f = .str "" ∨ row_get row f = .str "null")
    (hok : format_values tm row = .ok rec) :
    (f, (Option.none : Option PyVal)) ∈ rec := by
  induction tm generalizing rec with
  | nil => simp at hmem
  | cons hd rest ih =>
    obtain ⟨g, gty⟩ := hd
    rw [List.mem_cons] at hmem
    unfold format_values at hok
    cases hfv : format_value (row_get row g) gty with
    | error e => rw [hfv] at hok; simp at hok
    | ok v =>
      cases hrest : format_values rest row with
      | error e => rw [hfv, hrest] at hok; simp at hok
      | ok r =>
        rw [hfv, hrest] at hok
        simp only [Except.ok.injEq] at hok
        subst hok
        rcases hmem with heq | hmem
        · obtain ⟨hf, hty⟩ := Prod.mk.injEq .. ▸ heq
          subst hf
          have hv : v = Option.none := by
            unfold format_value at hfv
            rcases hval with h | h | h <;>
              simp [h] at hfv <;> exact hfv.symm
          subst hv
          exact List.mem_cons_self _ _
        · exact List.mem_cons_of_mem _ (ih r hmem hrest)

deriving instance DecidableEq for Except

/-- C7 counterexample: shaping the raw row {"updatedAt": "", "id": "5"} with
updatedAt declared date-time yields a record that still CONTAINS the
updatedAt key (mapped to an explicit null), not a record lacking the key:
the dict comprehension in format_values binds every typemap field. -/
theorem C7_counterexample :
    format_values [("updatedAt", OutType.single "date-time"), ("id", OutType.single "integer")]
        [("updatedAt", PyVal.str ""), ("id", PyVal.str "5")]
      = .ok [("updatedAt", Option.none), ("id", some (PyVal.int 5))] ∧
    "updatedAt" ∈
      ([("updatedAt", (Option.none : Option PyVal)), ("id", some (PyVal.int 5))].map Prod.fst) := by
  exact ⟨by decide, by decide⟩

/-- C7 (amended): for every schema and declared field type, shaping a raw row
whose field value is the empty string or the literal string "null" (or is
missing) yields an output record in which that key is PRESENT and maps to an
explicit null value; in particular the raw row {"updatedAt": "", "id": "5"}
with updatedAt declared date-time shapes to a record whose updatedAt key maps
to null. -/
theorem C7_empty_value_shapes_to_explicit_null
    (tm : List (String × OutType)) (row : List (String × PyVal))
    (f : String) (ty : OutType) (rec : List (String × Option PyVal))
    (hmem : (f, ty) ∈ tm)
    (hval : row_get row f = .none ∨ row_get row f = .str "" ∨ row_get row f = .str "null")
    (hok : format_values tm row = .ok rec) :
    (f, (Option.none : Option PyVal)) ∈ rec ∧ f ∈ rec.map Prod.fst ∧
    format_values [("updatedAt", OutType.single "date-time"), ("id", OutType.single "integer")]
        [("updatedAt", PyVal.str ""), ("id", PyVal.str "5")]
      = .ok [("updatedAt", Option.none), ("id", some (PyVal.int 5))] := by
  have h := format_values_keeps_null_keys tm row f ty rec hmem hval hok
  refine ⟨h, ?_, by decide⟩
  exact List.mem_map.mpr ⟨(f, Option.none), h, rfl⟩

/-- C7 witness: the amended theorem applied at the spec's concrete scenario. -/
theorem C7_witness :
    ("updatedAt", (Option.none : Option PyVal)) ∈
      [("updatedAt", (Option.none : Option PyVal)), ("id", some (PyVal.int 5))] :=
  (C7_empty_value_shapes_to_explicit_null
    [("updatedAt", OutType.single "date-time"), ("id", OutType.single "integer")]
    [("updatedAt", PyVal.str ""), ("id", PyVal.str "5")]
    "updatedAt" (OutType.single "date-time")
    [("updatedAt", Option.none), ("id", some (PyVal.int 5))]
    (by decide) (by decide) (by decide)).1

/-- C8: type-coercion round trip: for each declared type (string, integer,
number, boolean, date-time), coercing the stringified representative value
back through the shaper returns the original value; an integer carrying a
decimal point is truncated at the decimal point (toward zero) rather than
failing, and booleans are recognized by case-insensitive comparison to
"true". -/
theorem C8_type_coercion_round_trip :
    format_value (.str (py_str (.str "some text"))) (.single "string")
      = .ok (some (.str "some text")) ∧
    format_value (.str (py_str (.int 42))) (.single "integer") = .ok (some (.int 42)) ∧
    format_value (.str (py_str (.int (-7)))) (.single "integer") = .ok (some (.int (-7))) ∧
    format_value (.str "12.5") (.single "number") = .ok (some (.float (mkRat 25 2))) ∧
    (∀ b : Bool, format_value (.str (py_str (.bool b))) (.single "boolean")
      = .ok (some (.bool b))) ∧
    format_value (.str "2020-02-02T00:00:00+00:00") (.single "date-time")
      = .ok (some (.str "2020-02-02T00:00:00+00:00")) ∧
    format_value (.str "123.123") (.single "integer") = .ok (some (.int 123)) ∧
    format_value (.str "-95.6") (.single "integer") = .ok (some (.int (-95))) ∧
    format_value (.str "TRUE") (.single "boolean") = .ok (some (.bool true)) ∧
    format_value (.str "tRuE") (.single "boolean") = .ok (some (.bool true)) ∧
    format_value (.str "false") (.single "boolean") = .ok (some (.bool false)) := by
  refine ⟨by decide, by decide, by decide, by decide, ?_, by decide, by decide, by decide,
    by decide, by decide, by decide⟩
  intro b
  cases b <;> decide

/-! ## Checkpoint state and the export sync loops
(`update_state_with_export_info`, `get_or_create_export_for_leads`,
`get_or_create_export_for_activities`, `wait_for_export`, `sync_leads`,
`sync_activities` of tap_marketo/sync.py) -/

/-- The per-stream slice of the singer bookmark state that the export loops
read and write: the replication-key bookmark (an instant, in microseconds),
and the pending export id / export end pair. -/
structure StreamState where
  cursor : Nat
  exportId : Option Nat
  exportEnd : Option Nat
deriving Repr, DecidableEq

/-- Which call site emitted a flushed state snapshot (ghost instrumentation;
the tags do not feed back into the computation):
`created` = the flush storing a fresh export id and end,
`windowDone` = the flush after a completed export window,
`exportCleared` = the flush clearing a failed export before re-raising. -/
inductive FlushKind where
  | created
  | windowDone
  | exportCleared
deriving Repr, DecidableEq

/-- Embeds `update_state_with_export_info` (tap_marketo/sync.py): writes the
`export_id` and `export_end` bookmarks unconditionally with the given
arguments (default None), writes the replication-key bookmark only when a
bookmark is passed, then flushes with `singer.write_state`.  Returns the new
state; the flushed snapshot is that same state, recorded by the callers. -/
def update_state_with_export_info (s : StreamState)
    (bookmark export_id export_end : Option Nat) : StreamState :=
  let s := { s with exportId := export_id, exportEnd := export_end }
  match bookmark with
  | some b => { s with cursor := b }
  | Option.none => s

/-- The surrounding world of one bulk-export stream sync, made explicit:

* `nowStart`  — `pendulum.utcnow()` at the `job_started` snapshot;
* `nowAt i`   — `pendulum.utcnow()` inside `get_export_end` for window `i`
  (wall clock advances while earlier windows download);
* `export_available eid` — the `client.export_available` probe for a stored
  export id;
* `new_export_id i` — the id Marketo assigns to the export created for
  window `i`;
* `waitOk i` — whether `client.wait_for_export` returns normally for window
  `i` (`false` = it raises ExportFailed);
* `rowsAt i` — the replication-key timestamps of the CSV rows streamed for
  window `i`;
* `use_corona` — the account's Corona capability (`client.use_corona`). -/
structure SyncEnv where
  nowStart : Nat
  nowAt : Nat → Nat
  export_available : Nat → Bool
  new_export_id : Nat → Nat
  waitOk : Nat → Bool
  rowsAt : Nat → List Nat
  use_corona : Bool

/-- Errors the sync loops can raise: a propagated ExportFailed, or the
TypeError from `pendulum.parse(None)` when `export_id` is stored without a
matching `export_end`. -/
inductive SyncError where
  | exportFailed
  | stateError
deriving Repr, DecidableEq

/-- The stored export id, dropped when the upstream no longer has it
(the availability probe `client.export_available`). -/
def stored_export_id (env : SyncEnv) (s : StreamState) : Option Nat :=
  match s.exportId with
  | some eid => if env.export_available eid then some eid else Option.none
  | Option.none => Option.none

/-- The create branch shared by `get_or_create_export_for_leads` and
`get_or_create_export_for_activities`: compute the window end, create the
export, store and flush the id/end pair. -/
def create_new_export (env : SyncEnv) (i : Nat) (s : StreamState)
    (export_start max_export_days : Nat) :
    Nat × Nat × StreamState × List (FlushKind × StreamState) :=
  let export_end := get_export_end export_start (env.nowAt i) max_export_days
  let eid := env.new_export_id i
  let s1 := update_state_with_export_info s Option.none (some eid) (some export_end)
  (eid, export_end, s1, [(.created, s1)])

/-- Embeds the state handling shared by `get_or_create_export_for_leads` and
`get_or_create_export_for_activities` (tap_marketo/sync.py), which differ
only in the query payload sent to `client.create_export` (elided here: it
does not touch checkpoint state).  If a stored export id is still available
it is reused together with the stored `export_end` bookmark; otherwise a new
export is created over `[export_start, get_export_end ...)` and the id/end
pair is stored and flushed.  A stored id without a stored end is the
`pendulum.parse(None)` TypeError. -/
def get_or_create_export (env : SyncEnv) (i : Nat) (s : StreamState)
    (export_start max_export_days : Nat) :
    Except SyncError (Nat × Nat × StreamState × List (FlushKind × StreamState)) :=
  match stored_export_id env s with
  | Option.none => .ok (create_new_export env i s export_start max_export_days)
  | some eid =>
    match s.exportEnd with
    | some e => .ok (eid, e, s, [])
    | Option.none => .error .stateError

/-- Embeds `wait_for_export` (tap_marketo/sync.py): on ExportFailed the
export id and end are cleared from the state, the cleared state is flushed,
and the error is re-raised (the error branch carries that flush); on success
the state is returned unchanged.  The outcome of `client.wait_for_export`
for window `i` is `env.waitOk i`; its detailed poll loop is modelled
separately as `client_wait_for_export`. -/
def wait_for_export (env : SyncEnv) (i : Nat) (s : StreamState) :
    Except (List (FlushKind × StreamState)) StreamState :=
  if env.waitOk i then .ok s
  else
    let s1 := update_state_with_export_info s Option.none Option.none Option.none
    .error [(.exportCleared, s1)]

/-- The while-loop of `sync_leads` (tap_marketo/sync.py), with `fuel` bounding
the number of iterations (every theorem below holds for every fuel value;
termination of the window progression is proved separately for
`export_windows`).  Returns the flushed snapshots in order and either the
final state and record count, or a raised error. -/
def sync_leads_loop (env : SyncEnv) (max_export_days job_started initial_bookmark : Nat) :
    Nat → Nat → Nat → Nat → StreamState → Nat →
    List (FlushKind × StreamState) × Except SyncError (StreamState × Nat)
  | 0, _, _, _, s, count => ([], .ok (s, count))
  | fuel + 1, i, export_start, max_bookmark, s, count =>
    if export_start < job_started then
      match get_or_create_export env i s export_start max_export_days with
      | .error e => ([], .error e)
      | .ok (_eid, export_end, s, fl1) =>
        match wait_for_export env i s with
        | .error fl2 => (fl1 ++ fl2, .error .exportFailed)
        | .ok s =>
          let rows := env.rowsAt i
          let max_bookmark :=
            if env.use_corona then export_end
            else rows.foldl
              (fun mb r => if initial_bookmark ≤ r then max mb r else mb) max_bookmark
          let s := update_state_with_export_info s (some max_bookmark)
            Option.none Option.none
          let rest := sync_leads_loop env max_export_days job_started initial_bookmark
            fuel (i + 1) export_end max_bookmark s (count + rows.length)
          (fl1 ++ [(.windowDone, s)] ++ rest.1, rest.2)
    else ([], .ok (s, count))

/-- Embeds `sync_leads` (tap_marketo/sync.py): the initial bookmark is the
stored replication-key bookmark; with Corona the export start is shifted
back by the attribution window (`attribution_us` microseconds); the
`job_started` snapshot is `utcnow()` truncated to the second. -/
def sync_leads (env : SyncEnv) (max_export_days attribution_us fuel : Nat) (s0 : StreamState) :
    List (FlushKind × StreamState) × Except SyncError (StreamState × Nat) :=
  let initial_bookmark := s0.cursor
  let export_start :=
    if env.use_corona then initial_bookmark - attribution_us else initial_bookmark
  let job_started := truncSec env.nowStart
  sync_leads_loop env max_export_days job_started initial_bookmark
    fuel 0 export_start initial_bookmark s0 0

/-- The while-loop of `sync_activities` (tap_marketo/sync.py): like the leads
loop but the bookmark written after a completed window is the window's
`export_start`, and there is no Corona/attribution handling. -/
def sync_activities_loop (env : SyncEnv) (max_export_days job_started : Nat) :
    Nat → Nat → Nat → StreamState → Nat →
    List (FlushKind × StreamState) × Except SyncError (StreamState × Nat)
  | 0, _, _, s, count => ([], .ok (s, count))
  | fuel + 1, i, export_start, s, count =>
    if export_start < job_started then
      match get_or_create_export env i s export_start max_export_days with
      | .error e => ([], .error e)
      | .ok (_eid, export_end, s, fl1) =>
        match wait_for_export env i s with
        | .error fl2 => (fl1 ++ fl2, .error .exportFailed)
        | .ok s =>
          let rows := env.rowsAt i
          let s := update_state_with_export_info s (some export_start)
            Option.none Option.none
          let rest := sync_activities_loop env max_export_days job_started
            fuel (i + 1) export_end s (count + rows.length)
          (fl1 ++ [(.windowDone, s)] ++ rest.1, rest.2)
    else ([], .ok (s, count))

/-- Embeds `sync_activities` (tap_marketo/sync.py). -/
def sync_activities (env : SyncEnv) (max_export_days fuel : Nat) (s0 : StreamState) :
    List (FlushKind × StreamState) × Except SyncError (StreamState × Nat) :=
  let export_start := s0.cursor
  let job_started := truncSec env.nowStart
  sync_activities_loop env max_export_days job_started fuel 0 export_start s0 0

/-- The window-progression skeleton shared by both export loops: the sequence
of `[export_start, export_end)` windows generated from a cursor, with
`nowAt i` the wall clock observed for window `i`.  Returns the windows and
the final `export_start`. -/
def export_windows (nowAt : Nat → Nat) (max_export_days job_started : Nat) :
    Nat → Nat → Nat → List (Nat × Nat) × Nat
  | 0, _, export_start => ([], export_start)
  | fuel + 1, i, export_start =>
    if export_start < job_started then
      let e := get_export_end export_start (nowAt i) max_export_days
      let rest := export_windows nowAt max_export_days job_started fuel (i + 1) e
      ((export_start, e) :: rest.1, rest.2)
    else ([], export_start)

theorem get_export_end_eq_min (export_start nowUs end_days : Nat) :
    get_export_end export_start nowUs end_days
      = truncSec (min (export_start + end_days * usPerDay) nowUs) := by
  show truncSec (if nowUs ≤ export_start + end_days * usPerDay then nowUs
      else export_start + end_days * usPerDay)
    = truncSec (min (export_start + end_days * usPerDay) nowUs)
  congr 1
  rcases Nat.le_total nowUs (export_start + end_days * usPerDay) with h | h
  · rw [if_pos h, Nat.min_eq_right h]
  · rw [Nat.min_eq_left h]
    by_cases h2 : nowUs ≤ export_start + end_days * usPerDay
    · rw [if_pos h2]; omega
    · rw [if_neg h2]

theorem get_export_end_le_now (export_start nowUs end_days : Nat) :
    get_export_end export_start nowUs end_days ≤ nowUs := by
  rw [get_export_end_eq_min]
  exact le_trans (truncSec_le _) (Nat.min_le_right _ _)

/-- While the loop guard holds and the wall clock has not run backwards past
the job_started snapshot, a window's end lies strictly beyond its start. -/
theorem get_export_end_gt (export_start nowUs end_days job_started : Nat)
    (hdays : 1 ≤ end_days) (hjs : truncSec job_started = job_started)
    (hguard : export_start < job_started) (hnow : job_started ≤ nowUs) :
    export_start < get_export_end export_start nowUs end_days := by
  rw [get_export_end_eq_min]
  rcases Nat.le_total nowUs (export_start + end_days * usPerDay) with h | h
  · rw [Nat.min_eq_right h]
    calc export_start < job_started := hguard
      _ = truncSec job_started := hjs.symm
      _ ≤ truncSec nowUs := truncSec_mono hnow
  · rw [Nat.min_eq_left h]
    have h1 := lt_truncSec_add (export_start + end_days * usPerDay)
    have h2 : usPerSec ≤ end_days * usPerDay := by
      calc usPerSec ≤ usPerDay := by simp [usPerDay, usPerSec]
        _ = 1 * usPerDay := (Nat.one_mul _).symm
        _ ≤ end_days * usPerDay := Nat.mul_le_mul_right _ hdays
    omega

/-- A bookmark value below both the window start plus the attribution shift
and (the job_started snapshot or the window start) cannot exceed the window
end: the flushed Corona bookmark never regresses. -/
theorem get_export_end_ge_bookmark (mb export_start nowUs end_days job_started attr : Nat)
    (hjs : truncSec job_started = job_started)
    (hguard : export_start < job_started) (hnow : job_started ≤ nowUs)
    (hattr : attr + usPerSec ≤ end_days * usPerDay)
    (hA : mb ≤ export_start + attr)
    (hB : mb ≤ job_started ∨ mb ≤ export_start) :
    mb ≤ get_export_end export_start nowUs end_days := by
  rw [get_export_end_eq_min]
  rcases Nat.le_total nowUs (export_start + end_days * usPerDay) with h | h
  · rw [Nat.min_eq_right h]
    have h1 : job_started ≤ truncSec nowUs := by
      calc job_started = truncSec job_started := hjs.symm
        _ ≤ truncSec nowUs := truncSec_mono hnow
    omega
  · rw [Nat.min_eq_left h]
    have h1 := lt_truncSec_add (export_start + end_days * usPerDay)
    omega

/-- C2 (amended): the window end computed for an export equals
min(cursor + maxSpanDays, now) truncated to whole seconds, where "now" is the
wall clock observed at the moment `get_export_end` runs, and the window end
never exceeds that observed now.  (It can, however, exceed the job_started
snapshot taken once at sync start, because later windows are clipped against
a later clock reading — see the counterexample.) -/
theorem C2_export_end_spec (export_start nowUs end_days : Nat) :
    get_export_end export_start nowUs end_days
      = truncSec (min (export_start + end_days * usPerDay) nowUs) ∧
    get_export_end export_start nowUs end_days ≤ nowUs :=
  ⟨get_export_end_eq_min export_start nowUs end_days,
   get_export_end_le_now export_start nowUs end_days⟩

/-- C2 counterexample: a sync_activities run whose first window is computed
after the wall clock has advanced 1000 seconds past the job_started snapshot
(172800000000 us): the flushed pending export_end is 173800000000 us, which
exceeds the job_started snapshot, refuting "the window end never exceeds the
now snapshot taken once at sync start". -/
theorem C2_counterexample :
    (sync_activities
      { nowStart := 172800000000
        nowAt := fun _ => 173800000000
        export_available := fun _ => false
        new_export_id := fun i => i
        waitOk := fun _ => true
        rowsAt := fun _ => []
        use_corona := true } 30 2
      { cursor := 86400000000, exportId := Option.none, exportEnd := Option.none }).1
    = [(FlushKind.created,
          { cursor := 86400000000, exportId := some 0, exportEnd := some 173800000000 }),
       (FlushKind.windowDone,
          { cursor := 86400000000, exportId := Option.none, exportEnd := Option.none })] ∧
    truncSec 172800000000 = 172800000000 ∧
    (172800000000 : Nat) < 173800000000 := by
  refine ⟨by decide, by decide, by decide⟩

theorem export_windows_head_start (nowAt : Nat → Nat) (max_export_days job_started : Nat)
    (fuel i export_start : Nat) (w : Nat × Nat)
    (h : w ∈ (export_windows nowAt max_export_days job_started fuel i export_start).1.head?) :
    w.1 = export_start := by
  cases fuel with
  | zero => simp [export_windows] at h
  | succ fuel =>
    unfold export_windows at h
    by_cases hg : export_start < job_started
    · rw [if_pos hg] at h
      simp at h
      subst h
      rfl
    · rw [if_neg hg] at h
      simp at h

theorem export_windows_chain (nowAt : Nat → Nat) (max_export_days job_started : Nat)
    (hdays : 1 ≤ max_export_days) (hjs : truncSec job_started = job_started)
    (hnow : ∀ j, job_started ≤ nowAt j) :
    ∀ fuel i export_start,
      List.Chain' (fun w1 w2 => w1.2 = w2.1 ∧ w1.1 ≤ w2.1)
        (export_windows nowAt max_export_days job_started fuel i export_start).1 := by
  intro fuel
  induction fuel with
  | zero => intro i export_start; simp [export_windows]
  | succ fuel ih =>
    intro i export_start
    unfold export_windows
    by_cases hg : export_start < job_started
    · rw [if_pos hg]
      rw [List.chain'_cons']
      refine ⟨?_, ih (i + 1) _⟩
      intro b hb
      have hb1 := export_windows_head_start nowAt max_export_days job_started
        fuel (i + 1) _ b hb
      constructor
      · exact hb1.symm
      · rw [hb1]
        exact le_of_lt (get_export_end_gt export_start (nowAt i) max_export_days
          job_started hdays hjs hg (hnow i))
    · rw [if_neg hg]
      exact List.chain'_nil

theorem export_windows_terminates (nowAt : Nat → Nat) (max_export_days job_started : Nat)
    (hdays : 1 ≤ max_export_days) (hjs : truncSec job_started = job_started)
    (hnow : ∀ j, job_started ≤ nowAt j) :
    ∀ fuel i export_start, job_started - export_start ≤ fuel →
      job_started ≤ (export_windows nowAt max_export_days job_started fuel i export_start).2 := by
  intro fuel
  induction fuel with
  | zero =>
    intro i export_start hf
    simp only [export_windows]
    omega
  | succ fuel ih =>
    intro i export_start hf
    unfold export_windows
    by_cases hg : export_start < job_started
    · rw [if_pos hg]
      have he := get_export_end_gt export_start (nowAt i) max_export_days
        job_started hdays hjs hg (hnow i)
      exact ih (i + 1) _ (by omega)
    · rw [if_neg hg]
      omega

/-- C3: within one stream's sync loop with a fixed max_export_days, each
window's end equals the next window's start and the starts are non-decreasing;
the loop terminates once the start reaches the job_started snapshot; and in
the concrete scenario (cursor 2020-01-01T00:00:00Z, now 2020-02-15T00:00:00Z,
maxSpanDays=30) exactly two export jobs are created, with windows
[01-01, 01-31) and [01-31, 02-15). -/
theorem C3_window_monotonicity (nowAt : Nat → Nat)
    (max_export_days job_started fuel i export_start : Nat)
    (hdays : 1 ≤ max_export_days) (hjs : truncSec job_started = job_started)
    (hnow : ∀ j, job_started ≤ nowAt j) :
    List.Chain' (fun w1 w2 => w1.2 = w2.1 ∧ w1.1 ≤ w2.1)
      (export_windows nowAt max_export_days job_started fuel i export_start).1 ∧
    (job_started - export_start ≤ fuel →
      job_started ≤ (export_windows nowAt max_export_days job_started fuel i export_start).2) ∧
    export_windows (fun _ => 1581724800000000) 30 1581724800000000 5 0 1577836800000000
      = ([(1577836800000000, 1580428800000000), (1580428800000000, 1581724800000000)],
         1581724800000000) ∧
    (sync_activities
      { nowStart := 1581724800000000
        nowAt := fun _ => 1581724800000000
        export_available := fun _ => false
        new_export_id := fun j => j
        waitOk := fun _ => true
        rowsAt := fun _ => []
        use_corona := true } 30 5
      { cursor := 1577836800000000, exportId := Option.none, exportEnd := Option.none }).1
    = [(FlushKind.created,
          { cursor := 1577836800000000, exportId := some 0,
            exportEnd := some 1580428800000000 }),
       (FlushKind.windowDone,
          { cursor := 1577836800000000, exportId := Option.none, exportEnd := Option.none }),
       (FlushKind.created,
          { cursor := 1577836800000000, exportId := some 1,
            exportEnd := some 1581724800000000 }),
       (FlushKind.windowDone,
          { cursor := 1580428800000000, exportId := Option.none, exportEnd := Option.none })] := by
  refine ⟨export_windows_chain nowAt max_export_days job_started hdays hjs hnow fuel i
      export_start,
    export_windows_terminates nowAt max_export_days job_started hdays hjs hnow fuel i
      export_start,
    by decide, by decide⟩

/-- C3 witness: the theorem instantiated at the spec's concrete scenario. -/
theorem C3_witness :
    List.Chain' (fun w1 w2 => w1.2 = w2.1 ∧ w1.1 ≤ w2.1)
      (export_windows (fun _ => 1581724800000000) 30 1581724800000000
        5 0 1577836800000000).1 ∧
    export_windows (fun _ => 1581724800000000) 30 1581724800000000 5 0 1577836800000000
      = ([(1577836800000000, 1580428800000000), (1580428800000000, 1581724800000000)],
         1581724800000000) := by
  have h := C3_window_monotonicity (fun _ => 1581724800000000) 30 1581724800000000
    5 0 1577836800000000 (by decide) (by decide) (fun j => Nat.le_refl _)
  exact ⟨h.1, h.2.2.1⟩

theorem le_foldl_bookmark (ib : Nat) : ∀ (rows : List Nat) (mb : Nat),
    mb ≤ rows.foldl (fun mb r => if ib ≤ r then max mb r else mb) mb := by
  intro rows
  induction rows with
  | nil => intro mb; simp
  | cons r rs ih =>
    intro mb
    rw [List.foldl_cons]
    refine le_trans ?_ (ih _)
    split
    · exact Nat.le_max_left _ _
    · exact Nat.le_refl _

theorem update_state_bookmark_eq (s : StreamState) (mb : Nat) :
    update_state_with_export_info s (some mb) Option.none Option.none
      = { cursor := mb, exportId := Option.none, exportEnd := Option.none } := rfl

theorem wait_for_export_ok_eq (env : SyncEnv) (i : Nat) (s s2 : StreamState)
    (h : wait_for_export env i s = .ok s2) : s2 = s := by
  unfold wait_for_export at h
  by_cases hw : env.waitOk i
  · rw [if_pos hw] at h
    injection h with h
    exact h.symm
  · rw [if_neg hw] at h
    simp only [update_state_with_export_info] at h
    exact absurd h (by simp)

theorem wait_for_export_error_eq (env : SyncEnv) (i : Nat) (s : StreamState)
    (fl : List (FlushKind × StreamState))
    (h : wait_for_export env i s = .error fl) :
    fl = [(FlushKind.exportCleared,
      { cursor := s.cursor, exportId := Option.none, exportEnd := Option.none })] := by
  unfold wait_for_export at h
  by_cases hw : env.waitOk i
  · rw [if_pos hw] at h
    exact absurd h (by simp)
  · rw [if_neg hw] at h
    simp only [update_state_with_export_info] at h
    injection h with h
    exact h.symm

/-- What `get_or_create_export` does to the state: the cursor is untouched,
any flush it emits stores the id/end pair together and is not a
completed-window flush, and the returned export_end is either the stored end
bookmark (resume path) or the freshly computed window end. -/
theorem get_or_create_export_spec (env : SyncEnv) (i : Nat) (s : StreamState)
    (export_start max_export_days eid export_end : Nat) (s1 : StreamState)
    (fl1 : List (FlushKind × StreamState))
    (h : get_or_create_export env i s export_start max_export_days
      = .ok (eid, export_end, s1, fl1)) :
    s1.cursor = s.cursor ∧
    (∀ kf ∈ fl1, kf.2.exportId.isSome = kf.2.exportEnd.isSome) ∧
    (∀ kf ∈ fl1, kf.1 ≠ FlushKind.windowDone) ∧
    (fl1 = [] ∨ fl1 = [(FlushKind.created, s1)]) ∧
    (s.exportEnd = some export_end ∨
      export_end = get_export_end export_start (env.nowAt i) max_export_days) := by
  obtain ⟨cur, oid, oend⟩ := s
  have hcreate :
      (.ok (create_new_export env i ⟨cur, oid, oend⟩ export_start max_export_days)
          : Except SyncError (Nat × Nat × StreamState × List (FlushKind × StreamState)))
        = .ok (eid, export_end, s1, fl1) →
      StreamState.cursor s1 = cur ∧
      (∀ kf ∈ fl1, kf.2.exportId.isSome = kf.2.exportEnd.isSome) ∧
      (∀ kf ∈ fl1, kf.1 ≠ FlushKind.windowDone) ∧
      (fl1 = [] ∨ fl1 = [(FlushKind.created, s1)]) ∧
      (oend = some export_end ∨
        export_end = get_export_end export_start (env.nowAt i) max_export_days) := by
    intro hcr
    simp only [create_new_export, update_state_with_export_info,
      Except.ok.injEq, Prod.mk.injEq] at hcr
    obtain ⟨h1, h2, h3, h4⟩ := hcr
    subst h2
    subst h3
    subst h4
    refine ⟨rfl, ?_, ?_, Or.inr rfl, Or.inr rfl⟩
    · intro kf hkf
      simp only [List.mem_singleton] at hkf
      subst hkf
      rfl
    · intro kf hkf
      simp only [List.mem_singleton] at hkf
      subst hkf
      simp
  cases oid with
  | none =>
    simp only [get_or_create_export, stored_export_id] at h
    exact hcreate h
  | some d =>
    by_cases hav : env.export_available d
    · cases oend with
      | none =>
        simp only [get_or_create_export, stored_export_id, hav, if_true] at h
        exact absurd h (by simp)
      | some e =>
        simp only [get_or_create_export, stored_export_id, hav, if_true,
          Except.ok.injEq, Prod.mk.injEq] at h
        obtain ⟨h1, h2, h3, h4⟩ := h
        subst h2
        subst h3
        subst h4
        exact ⟨rfl, by simp, by simp, Or.inl rfl, Or.inl (by rw [h1])⟩
    · simp only [get_or_create_export, stored_export_id, hav, if_false] at h
      exact hcreate h

/-- Sum over a window's rows of the non-Corona bookmark update
`if record_bookmark >= initial_bookmark: max_bookmark = max(...)`:
the running maximum never decreases. -/
theorem le_foldl_max_bookmark (ib : Nat) : ∀ (rows : List Nat) (mb : Nat),
    mb ≤ rows.foldl (fun mb r => if ib ≤ r then max mb r else mb) mb := by
  intro rows
  induction rows with
  | nil => intro mb; simp
  | cons r rs ih =>
    intro mb
    rw [List.foldl_cons]
    refine le_trans ?_ (ih _)
    split
    · exact Nat.le_max_left _ _
    · exact Nat.le_refl _

/-- C1 loop invariant for `sync_leads_loop`: every flushed snapshot stores
the export id and end together, every completed-window flush has both
cleared, and the flushed cursors form a non-decreasing chain starting from
the current cursor. -/
theorem sync_leads_loop_invariant (env : SyncEnv) (md js ib attr : Nat)
    (hjs : truncSec js = js) (hnow : ∀ j, js ≤ env.nowAt j)
    (hattr2 : attr + usPerSec ≤ md * usPerDay) :
    ∀ fuel i export_start max_bookmark s count,
      s.cursor ≤ max_bookmark →
      (env.use_corona = true →
        max_bookmark ≤ export_start + attr ∧
          (max_bookmark ≤ js ∨ max_bookmark ≤ export_start)) →
      (∀ e, s.exportEnd = some e → max_bookmark ≤ e) →
      (∀ kf ∈ (sync_leads_loop env md js ib fuel i export_start max_bookmark s count).1,
          kf.2.exportId.isSome = kf.2.exportEnd.isSome) ∧
      (∀ kf ∈ (sync_leads_loop env md js ib fuel i export_start max_bookmark s count).1,
          kf.1 = FlushKind.windowDone →
            kf.2.exportId = Option.none ∧ kf.2.exportEnd = Option.none) ∧
      List.Chain' (fun a b => a ≤ b)
        (s.cursor ::
          (sync_leads_loop env md js ib fuel i export_start max_bookmark s count).1.map
            (fun kf => kf.2.cursor)) := by
  intro fuel
  induction fuel with
  | zero =>
    intro i export_start max_bookmark s count _ _ _
    simp [sync_leads_loop]
  | succ fuel ih =>
    intro i export_start max_bookmark s count hc hcor hres
    unfold sync_leads_loop
    by_cases hg : export_start < js
    · rw [if_pos hg]
      cases hge : get_or_create_export env i s export_start md with
      | error e => simp
      | ok v =>
        obtain ⟨eid, export_end, s1, fl1⟩ := v
        obtain ⟨hcur1, hpair1, hnwd1, hfl1, hend1⟩ :=
          get_or_create_export_spec env i s export_start md eid export_end s1 fl1 hge
        dsimp only
        cases hwe : wait_for_export env i s1 with
        | error fl2 =>
          have hfl2 := wait_for_export_error_eq env i s1 fl2 hwe
          subst hfl2
          dsimp only
          refine ⟨?_, ?_, ?_⟩
          · intro kf hkf
            rcases List.mem_append.mp hkf with h1 | h2
            · exact hpair1 kf h1
            · simp only [List.mem_singleton] at h2
              subst h2
              rfl
          · intro kf hkf hwd
            rcases List.mem_append.mp hkf with h1 | h2
            · exact absurd hwd (hnwd1 kf h1)
            · simp only [List.mem_singleton] at h2
              subst h2
              simp at hwd
          · rcases hfl1 with hnil | hcons
            · subst hnil
              simp only [List.nil_append, List.map_cons, List.map_nil]
              exact List.chain'_cons.mpr ⟨le_of_eq hcur1.symm, List.chain'_singleton _⟩
            · subst hcons
              simp only [List.cons_append, List.nil_append, List.map_cons, List.map_nil]
              exact List.chain'_cons.mpr ⟨le_of_eq hcur1.symm,
                List.chain'_cons.mpr ⟨Nat.le_refl _, List.chain'_singleton _⟩⟩
        | ok s2 =>
          have hs2 := wait_for_export_ok_eq env i s1 s2 hwe
          subst hs2
          dsimp only
          simp only [update_state_bookmark_eq]
          have hmbMB : max_bookmark ≤
              (if env.use_corona = true then export_end
                else (env.rowsAt i).foldl
                  (fun mb r => if ib ≤ r then max mb r else mb) max_bookmark) := by
            split
            · next hct =>
              rcases hend1 with hstored | hfresh
              · exact hres export_end hstored
              · rw [hfresh]
                obtain ⟨hA, hB⟩ := hcor hct
                exact get_export_end_ge_bookmark max_bookmark export_start (env.nowAt i)
                  md js attr hjs hg (hnow i) hattr2 hA hB
            · exact le_foldl_max_bookmark ib _ _
          obtain ⟨ihp, ihw2, ihc⟩ := ih (i + 1) export_end
            (if env.use_corona = true then export_end
              else (env.rowsAt i).foldl
                (fun mb r => if ib ≤ r then max mb r else mb) max_bookmark)
            { cursor := (if env.use_corona = true then export_end
                else (env.rowsAt i).foldl
                  (fun mb r => if ib ≤ r then max mb r else mb) max_bookmark),
              exportId := Option.none, exportEnd := Option.none }
            (count + (env.rowsAt i).length)
            (Nat.le_refl _)
            (by
              intro hct
              rw [if_pos hct]
              exact ⟨Nat.le_add_right _ _, Or.inr (Nat.le_refl _)⟩)
            (by intro e he; exact absurd he (by simp))
          refine ⟨?_, ?_, ?_⟩
          · intro kf hkf
            rcases List.mem_append.mp hkf with h1 | h2
            · rcases List.mem_append.mp h1 with h3 | h4
              · exact hpair1 kf h3
              · simp only [List.mem_singleton] at h4
                subst h4
                rfl
            · exact ihp kf h2
          · intro kf hkf hwd
            rcases List.mem_append.mp hkf with h1 | h2
            · rcases List.mem_append.mp h1 with h3 | h4
              · exact absurd hwd (hnwd1 kf h3)
              · simp only [List.mem_singleton] at h4
                subst h4
                exact ⟨rfl, rfl⟩
            · exact ihw2 kf h2 hwd
          · rcases hfl1 with hnil | hcons
            · subst hnil
              simp only [List.nil_append, List.map_cons, List.map_append, List.map_cons]
              exact List.chain'_cons.mpr ⟨le_trans hc hmbMB, ihc⟩
            · subst hcons
              simp only [List.cons_append, List.nil_append, List.map_cons, List.map_append]
              exact List.chain'_cons.mpr ⟨le_of_eq hcur1.symm,
                List.chain'_cons.mpr ⟨hcur1 ▸ le_trans hc hmbMB, ihc⟩⟩
    · rw [if_neg hg]
      simp [List.chain'_singleton]

/-- C1: in every checkpoint state flushed by the leads sync, the per-stream
export_id and export_end bookmarks are either both set or both unset; every
flush that follows a completed export window has both cleared to null; and
the flushed replication-key cursors form a non-decreasing chain starting at
the initial bookmark, so the replication cursor never regresses below its
value before any window. -/
theorem C1_checkpoint_invariant (env : SyncEnv)
    (max_export_days attribution_us fuel : Nat) (s0 : StreamState)
    (hattr2 : attribution_us + usPerSec ≤ max_export_days * usPerDay)
    (hattr1 : attribution_us ≤ s0.cursor)
    (hcur : s0.cursor ≤ truncSec env.nowStart)
    (hnow : ∀ j, env.nowStart ≤ env.nowAt j)
    (hres : ∀ e, s0.exportEnd = some e → s0.cursor ≤ e) :
    (∀ kf ∈ (sync_leads env max_export_days attribution_us fuel s0).1,
        kf.2.exportId.isSome = kf.2.exportEnd.isSome) ∧
    (∀ kf ∈ (sync_leads env max_export_days attribution_us fuel s0).1,
        kf.1 = FlushKind.windowDone →
          kf.2.exportId = Option.none ∧ kf.2.exportEnd = Option.none) ∧
    List.Chain' (fun a b => a ≤ b)
      (s0.cursor :: (sync_leads env max_export_days attribution_us fuel s0).1.map
        (fun kf => kf.2.cursor)) := by
  unfold sync_leads
  dsimp only
  apply sync_leads_loop_invariant env max_export_days (truncSec env.nowStart)
    s0.cursor attribution_us (truncSec_idem env.nowStart)
    (fun j => le_trans (truncSec_le _) (hnow j)) hattr2
    fuel 0 _ s0.cursor s0 0 (Nat.le_refl _) ?_ hres
  intro hct
  rw [if_pos hct]
  refine ⟨by omega, Or.inl hcur⟩

/-- C1 witness: the invariant instantiated on a concrete Corona-mode run
(cursor at day 100, job start at day 140, 1-day attribution window,
30-day max span). -/
theorem C1_witness :
    List.Chain' (fun a b => a ≤ b)
      ((8640000000000 : Nat) ::
        (sync_leads
          { nowStart := 12096000000000
            nowAt := fun _ => 12096000000000
            export_available := fun _ => false
            new_export_id := fun j => j
            waitOk := fun _ => true
            rowsAt := fun _ => []
            use_corona := true } 30 86400000000 3
          { cursor := 8640000000000, exportId := Option.none,
            exportEnd := Option.none }).1.map (fun kf => kf.2.cursor)) := by
  have h := C1_checkpoint_invariant
    { nowStart := 12096000000000
      nowAt := fun _ => 12096000000000
      export_available := fun _ => false
      new_export_id := fun j => j
      waitOk := fun _ => true
      rowsAt := fun _ => []
      use_corona := true } 30 86400000000 3
    { cursor := 8640000000000, exportId := Option.none, exportEnd := Option.none }
    (by decide) (by decide) (by decide) (fun j => Nat.le_refl _)
    (fun e he => Option.noConfusion he)
  exact h.2.2

/-! ## The export poll loop (`Client.wait_for_export`, tap_marketo/client.py) -/

/-- Marketo bulk-export job statuses as polled by the client. -/
inductive ExportStatus where
  | created
  | queued
  | processing
  | completed
  | cancelled
  | failed
deriving Repr, DecidableEq

/-- Observable actions of the poll loop: a status poll (`i`-th poll, at
elapsed time `t` seconds, observing `st`) and an enqueue call. -/
inductive WaitAction where
  | poll (i t : Nat) (st : ExportStatus)
  | enqueue (i : Nat)
deriving Repr, DecidableEq

/-- Why `Client.wait_for_export` raises ExportFailed: a Cancelled/Failed
status, or the total wait exceeding the job timeout. -/
inductive ExportFailedReason where
  | badStatus (st : ExportStatus)
  | timedOut
deriving Repr, DecidableEq

/-- The while-loop of `Client.wait_for_export` (tap_marketo/client.py):

    timeout_time = pendulum.utcnow().add(seconds=self.job_timeout)
    while pendulum.utcnow() < timeout_time:
        status = self.poll_export(stream_type, export_id)
        if status == "Created": self.enqueue_export(...)
        elif status in ["Cancelled", "Failed"]: raise ExportFailed(status)
        elif status == "Completed": return True
        time.sleep(self.poll_interval)
    raise ExportFailed("Export timed out ...")

`t` is the elapsed time in seconds since loop entry (each iteration sleeps
`poll_interval`), `timeout_time` the job timeout, `statuses i` the status
observed by the `i`-th poll.  `fuel` bounds the iterations; the caller
passes `job_timeout + 1`, which is never exhausted before the timeout test
fails whenever `poll_interval ≥ 1`, so the fuel-exhausted branch returns the
same timeout error the loop would. -/
def wait_loop (statuses : Nat → ExportStatus) (poll_interval timeout_time : Nat) :
    Nat → Nat → Nat → List WaitAction × Except ExportFailedReason Bool
  | 0, _, _ => ([], .error .timedOut)
  | fuel + 1, t, i =>
    if t < timeout_time then
      let st := statuses i
      if st = .created then
        let rest := wait_loop statuses poll_interval timeout_time fuel
          (t + poll_interval) (i + 1)
        (.poll i t st :: .enqueue i :: rest.1, rest.2)
      else if st = .cancelled ∨ st = .failed then
        ([.poll i t st], .error (.badStatus st))
      else if st = .completed then
        ([.poll i t st], .ok true)
      else
        let rest := wait_loop statuses poll_interval timeout_time fuel
          (t + poll_interval) (i + 1)
        (.poll i t st :: rest.1, rest.2)
    else ([], .error .timedOut)

/-- Embeds `Client.wait_for_export` (tap_marketo/client.py). -/
def client_wait_for_export (statuses : Nat → ExportStatus)
    (job_timeout poll_interval : Nat) :
    List WaitAction × Except ExportFailedReason Bool :=
  wait_loop statuses poll_interval job_timeout (job_timeout + 1) 0 0

/-- A status on which the poll loop stops: Completed, Cancelled or Failed. -/
def terminal_status (st : ExportStatus) : Prop :=
  st = .completed ∨ st = .cancelled ∨ st = .failed

instance (st : ExportStatus) : Decidable (terminal_status st) := by
  unfold terminal_status
  infer_instance

theorem wait_loop_poll_spec (statuses : Nat → ExportStatus) (pi tt : Nat) :
    ∀ fuel t i iq tq stq,
      WaitAction.poll iq tq stq ∈ (wait_loop statuses pi tt fuel t i).1 →
      stq = statuses iq ∧ i ≤ iq ∧ tq = t + (iq - i) * pi := by
  intro fuel
  induction fuel with
  | zero => intro t i iq tq stq h; simp [wait_loop] at h
  | succ fuel ih =>
    intro t i iq tq stq h
    unfold wait_loop at h
    by_cases ht : t < tt
    · rw [if_pos ht] at h
      dsimp only at h
      have hrec : WaitAction.poll iq tq stq
            ∈ (wait_loop statuses pi tt fuel (t + pi) (i + 1)).1 →
          stq = statuses iq ∧ i ≤ iq ∧ tq = t + (iq - i) * pi := by
        intro hm
        obtain ⟨h1, h2, h3⟩ := ih (t + pi) (i + 1) iq tq stq hm
        refine ⟨h1, by omega, ?_⟩
        have hd : iq - i = (iq - (i + 1)) + 1 := by omega
        rw [hd, Nat.succ_mul]
        omega
      split at h
      · simp only [List.mem_cons] at h
        rcases h with h | h | h
        · injection h with h1 h2 h3
          subst h1; subst h2; subst h3
          exact ⟨rfl, Nat.le_refl _, by simp⟩
        · exact absurd h (by simp)
        · exact hrec h
      · split at h
        · simp only [List.mem_singleton] at h
          injection h with h1 h2 h3
          subst h1; subst h2; subst h3
          exact ⟨rfl, Nat.le_refl _, by simp⟩
        · split at h
          · simp only [List.mem_singleton] at h
            injection h with h1 h2 h3
            subst h1; subst h2; subst h3
            exact ⟨rfl, Nat.le_refl _, by simp⟩
          · simp only [List.mem_cons] at h
            rcases h with h | h
            · injection h with h1 h2 h3
              subst h1; subst h2; subst h3
              exact ⟨rfl, Nat.le_refl _, by simp⟩
            · exact hrec h
    · rw [if_neg ht] at h
      simp at h

theorem wait_loop_enqueue_spec (statuses : Nat → ExportStatus) (pi tt : Nat) :
    ∀ fuel t i iq tq,
      WaitAction.poll iq tq ExportStatus.created ∈ (wait_loop statuses pi tt fuel t i).1 →
      WaitAction.enqueue iq ∈ (wait_loop statuses pi tt fuel t i).1 := by
  intro fuel
  induction fuel with
  | zero => intro t i iq tq h; simp [wait_loop] at h
  | succ fuel ih =>
    intro t i iq tq h
    unfold wait_loop at h ⊢
    by_cases ht : t < tt
    · rw [if_pos ht] at h ⊢
      dsimp only at h ⊢
      by_cases hcr : statuses i = ExportStatus.created
      · rw [if_pos hcr] at h ⊢
        simp only [List.mem_cons] at h ⊢
        rcases h with h | h | h
        · injection h with h1 _ _
          subst h1
          exact Or.inr (Or.inl rfl)
        · exact absurd h (by simp)
        · exact Or.inr (Or.inr (ih _ _ iq tq h))
      · rw [if_neg hcr] at h ⊢
        by_cases hcf : statuses i = ExportStatus.cancelled ∨ statuses i = ExportStatus.failed
        · rw [if_pos hcf] at h
          simp only [List.mem_singleton] at h
          injection h with h1 h2 h3
          subst h1
          exact absurd h3.symm hcr
        · rw [if_neg hcf] at h ⊢
          by_cases hcm : statuses i = ExportStatus.completed
          · rw [if_pos hcm] at h
            simp only [List.mem_singleton] at h
            injection h with h1 h2 h3
            subst h1
            exact absurd h3.symm hcr
          · rw [if_neg hcm] at h ⊢
            simp only [List.mem_cons] at h ⊢
            rcases h with h | h
            · injection h with h1 h2 h3
              subst h1
              exact absurd h3.symm hcr
            · exact Or.inr (ih _ _ iq tq h)
    · rw [if_neg ht] at h
      simp at h

theorem wait_loop_timeout (statuses : Nat → ExportStatus) (pi tt : Nat)
    (hnt : ∀ j, ¬ terminal_status (statuses j)) :
    ∀ fuel t i, (wait_loop statuses pi tt fuel t i).2 = .error .timedOut := by
  intro fuel
  induction fuel with
  | zero => intro t i; rfl
  | succ fuel ih =>
    intro t i
    unfold wait_loop
    by_cases ht : t < tt
    · rw [if_pos ht]
      dsimp only
      have hnc : ¬ (statuses i = ExportStatus.cancelled ∨ statuses i = ExportStatus.failed) := by
        intro hcf
        exact hnt i (Or.inr hcf)
      have hncmp : ¬ statuses i = ExportStatus.completed := by
        intro hcm
        exact hnt i (Or.inl hcm)
      by_cases hcr : statuses i = ExportStatus.created
      · rw [if_pos hcr]
        exact ih (t + pi) (i + 1)
      · rw [if_neg hcr, if_neg hnc, if_neg hncmp]
        exact ih (t + pi) (i + 1)
    · rw [if_neg ht]

theorem wait_loop_bad_status (statuses : Nat → ExportStatus) (pi tt : Nat) :
    ∀ n fuel t i,
      (∀ j, j < n → ¬ terminal_status (statuses (i + j))) →
      (statuses (i + n) = ExportStatus.cancelled ∨ statuses (i + n) = ExportStatus.failed) →
      t + n * pi < tt → n < fuel →
      (wait_loop statuses pi tt fuel t i).2
        = .error (.badStatus (statuses (i + n))) := by
  intro n
  induction n with
  | zero =>
    intro fuel t i _ hterm htime hfuel
    cases fuel with
    | zero => omega
    | succ fuel =>
      unfold wait_loop
      rw [if_pos (by omega)]
      dsimp only
      have hnc : ¬ statuses i = ExportStatus.created := by
        rcases hterm with h | h <;> · rw [Nat.add_zero] at h; rw [h]; simp
      rw [Nat.add_zero] at hterm
      rw [if_neg hnc, if_pos hterm]
      rfl
  | succ n ih =>
    intro fuel t i hpre hterm htime hfuel
    cases fuel with
    | zero => omega
    | succ fuel =>
      unfold wait_loop
      rw [if_pos (lt_of_le_of_lt (Nat.le_add_right t ((n + 1) * pi)) htime)]
      dsimp only
      have hshift : ∀ j, j < n → ¬ terminal_status (statuses (i + 1 + j)) := by
        intro j hj
        have := hpre (j + 1) (by omega)
        rw [show i + (j + 1) = i + 1 + j by omega] at this
        exact this
      have hterm1 : statuses (i + 1 + n) = ExportStatus.cancelled
          ∨ statuses (i + 1 + n) = ExportStatus.failed := by
        rw [show i + 1 + n = i + (n + 1) by omega]
        exact hterm
      have htime1 : t + pi + n * pi < tt := by
        have hsm : (n + 1) * pi = n * pi + pi := by ring
        omega
      have hrec := ih fuel (t + pi) (i + 1) hshift hterm1 htime1 (by omega)
      have hnt0 := hpre 0 (by omega)
      rw [Nat.add_zero] at hnt0
      have hncan : ¬ (statuses i = ExportStatus.cancelled ∨ statuses i = ExportStatus.failed) := by
        intro hcf
        exact hnt0 (Or.inr hcf)
      have hncmp : ¬ statuses i = ExportStatus.completed := by
        intro hcm
        exact hnt0 (Or.inl hcm)
      rw [show i + (n + 1) = i + 1 + n by omega]
      by_cases hcr : statuses i = ExportStatus.created
      · rw [if_pos hcr]
        exact hrec
      · rw [if_neg hcr, if_neg hncan, if_neg hncmp]
        exact hrec

/-- C5: the export wait loop polls the status on the fixed poll interval
(the i-th poll happens at elapsed time i * poll_interval and observes
statuses i); whenever a poll observes Created it re-issues the enqueue call;
if no poll ever observes a terminal status the loop raises ExportFailed with
a timeout once the total wait exceeds the job timeout; if the first terminal
status observed within the timeout is Cancelled or Failed the loop raises
ExportFailed with that status; and whenever ExportFailed is raised, the
caller (wait_for_export in sync.py) flushes a checkpoint with export_id and
export_end cleared before re-raising. -/
theorem C5_wait_for_export_behavior (statuses : Nat → ExportStatus)
    (job_timeout poll_interval : Nat) (hpi : 1 ≤ poll_interval) :
    (∀ iq tq stq,
      WaitAction.poll iq tq stq
          ∈ (client_wait_for_export statuses job_timeout poll_interval).1 →
        stq = statuses iq ∧ tq = iq * poll_interval) ∧
    (∀ iq tq,
      WaitAction.poll iq tq ExportStatus.created
          ∈ (client_wait_for_export statuses job_timeout poll_interval).1 →
        WaitAction.enqueue iq
          ∈ (client_wait_for_export statuses job_timeout poll_interval).1) ∧
    ((∀ j, ¬ terminal_status (statuses j)) →
      (client_wait_for_export statuses job_timeout poll_interval).2
        = .error .timedOut) ∧
    (∀ k, (∀ j, j < k → ¬ terminal_status (statuses j)) →
      (statuses k = ExportStatus.cancelled ∨ statuses k = ExportStatus.failed) →
      k * poll_interval < job_timeout →
      (client_wait_for_export statuses job_timeout poll_interval).2
        = .error (.badStatus (statuses k))) ∧
    (∀ (env : SyncEnv) (i : Nat) (s : StreamState) fl,
      wait_for_export env i s = .error fl →
      fl = [(FlushKind.exportCleared,
        { cursor := s.cursor, exportId := Option.none, exportEnd := Option.none })]) := by
  refine ⟨?_, ?_, ?_, ?_, ?_⟩
  · intro iq tq stq h
    obtain ⟨h1, _, h3⟩ := wait_loop_poll_spec statuses poll_interval job_timeout
      (job_timeout + 1) 0 0 iq tq stq h
    refine ⟨h1, ?_⟩
    simpa using h3
  · intro iq tq h
    exact wait_loop_enqueue_spec statuses poll_interval job_timeout
      (job_timeout + 1) 0 0 iq tq h
  · intro hnt
    exact wait_loop_timeout statuses poll_interval job_timeout hnt (job_timeout + 1) 0 0
  · intro k hpre hterm htime
    have hk : k ≤ k * poll_interval := Nat.le_mul_of_pos_right k hpi
    have h := wait_loop_bad_status statuses poll_interval job_timeout k
      (job_timeout + 1) 0 0
      (by intro j hj; simpa using hpre j hj)
      (by simpa using hterm)
      (by omega) (by omega)
    simpa using h
  · intro env i s fl h
    exact wait_for_export_error_eq env i s fl h

/-- C5 witness: a job stuck at Created/Queued past the timeout (poll
interval 3, timeout 10) raises the timeout ExportFailed. -/
theorem C5_witness :
    (client_wait_for_export
      (fun i => if i = 0 then ExportStatus.created else ExportStatus.queued) 10 3).2
      = .error .timedOut := by
  have h := C5_wait_for_export_behavior
    (fun i => if i = 0 then ExportStatus.created else ExportStatus.queued) 10 3
    (by decide)
  refine h.2.2.1 ?_
  intro j
  by_cases hj : j = 0 <;> simp [terminal_status, hj]

/-! ## Retry and backoff (`Client._request` / `Client.request` decorators,
tap_marketo/client.py) -/

/-- Outcome of one raw HTTP attempt made by `Client._request`: a successful
response (whose parsed body may carry the upstream short-term-throttle error
code 606), a 4xx response, or a 5xx/network-level RequestException. -/
inductive RawOutcome where
  | ok (throttled606 : Bool)
  | err4xx
  | err5xx
deriving Repr, DecidableEq

/-- What `Client.request` can ultimately raise: the HTTP-level failure the
inner backoff gave up on, or ShortTermQuotaExceeded after the fixed-interval
retries are exhausted. -/
inductive ReqError where
  | http (o : RawOutcome)
  | shortTermQuota
deriving Repr, DecidableEq

/-- Modelled from the spec: `singer.utils.backoff` (from the singer-python
library, not under src/), applied to `Client._request` at
tap_marketo/client.py:

    @singer.utils.backoff((requests.exceptions.RequestException),
                          singer.utils.exception_is_4xx)

retries the call on a RequestException with exponentially growing delay
(2^0, 2^1, ... seconds), gives up immediately when the exception carries a
4xx response, and makes at most 5 attempts.  `outcomes k` is the result of
the k-th raw attempt, `remaining` the tries left, `a` the attempt number
inside this run (fixing the delay exponent).  Returns (number of raw
attempts, delays slept, final result); the result carries the index of the
successful attempt and its 606 flag.  The fuel-0 branch is unreachable from
the entry point, which passes max_tries = 5. -/
def run_expo_backoff (outcomes : Nat → RawOutcome) :
    Nat → Nat → Nat → Nat × List Nat × Except RawOutcome (Nat × Bool)
  | 0, _, _ => (0, [], .error .err5xx)
  | remaining + 1, k, a =>
    match outcomes k with
    | .ok b => (1, [], .ok (k, b))
    | .err4xx => (1, [], .error .err4xx)
    | .err5xx =>
      if remaining = 0 then (1, [], .error .err5xx)
      else
        let rest := run_expo_backoff outcomes remaining (k + 1) (a + 1)
        (rest.1 + 1, 2 ^ a :: rest.2.1, rest.2.2)

/-- `Client._request` under its decorators: exponential backoff with
max_tries = 5, starting from raw attempt `k`. -/
def client_request_raw (outcomes : Nat → RawOutcome) (k : Nat) :
    Nat × List Nat × Except RawOutcome (Nat × Bool) :=
  run_expo_backoff outcomes 5 k 0

/-- Modelled from the spec: the backoff library's
`on_exception(backoff.constant, ShortTermQuotaExceeded, max_tries=5,
interval=4, jitter=None)` as configured by `handle_short_term_rate_limit`
(tap_marketo/client.py) around `Client.request`: when the response body
carries the 606 short-term-throttle code, `raise_for_rate_limit` raises
ShortTermQuotaExceeded and the whole call is retried after a fixed 4-second
interval, at most 5 tries; any other exception propagates unretried at this
layer.  Returns (total raw attempts, delays, result). -/
def run_request_with_retry (outcomes : Nat → RawOutcome) :
    Nat → Nat → Nat × List Nat × Except ReqError Nat
  | 0, _ => (0, [], .error .shortTermQuota)
  | tries + 1, k =>
    let inner := client_request_raw outcomes k
    match inner.2.2 with
    | .error o => (inner.1, inner.2.1, .error (.http o))
    | .ok (j, b) =>
      if b then
        if tries = 0 then (inner.1, inner.2.1, .error .shortTermQuota)
        else
          let rest := run_request_with_retry outcomes tries (j + 1)
          (inner.1 + rest.1, inner.2.1 ++ 4 :: rest.2.1, rest.2.2)
      else (inner.1, inner.2.1, .ok j)

/-- `Client.request` as guarded by `handle_short_term_rate_limit`. -/
def run_request (outcomes : Nat → RawOutcome) :
    Nat × List Nat × Except ReqError Nat :=
  run_request_with_retry outcomes 5 0

theorem run_expo_backoff_ok (outcomes : Nat → RawOutcome) :
    ∀ n remaining k a b, n < remaining →
      (∀ j, j < n → outcomes (k + j) = .err5xx) → outcomes (k + n) = .ok b →
      run_expo_backoff outcomes remaining k a
        = (n + 1, (List.range n).map (fun j => 2 ^ (a + j)), .ok (k + n, b)) := by
  intro n
  induction n with
  | zero =>
    intro remaining k a b hlt _ hok
    cases remaining with
    | zero => omega
    | succ r =>
      rw [Nat.add_zero] at hok
      unfold run_expo_backoff
      rw [hok]
      simp
  | succ n ih =>
    intro remaining k a b hlt hpre hok
    cases remaining with
    | zero => omega
    | succ r =>
      have h0 : outcomes k = .err5xx := by
        have := hpre 0 (by omega)
        rwa [Nat.add_zero] at this
      unfold run_expo_backoff
      rw [h0]
      rw [if_neg (by omega)]
      have hpre1 : ∀ j, j < n → outcomes (k + 1 + j) = .err5xx := by
        intro j hj
        have := hpre (j + 1) (by omega)
        rwa [show k + (j + 1) = k + 1 + j by omega] at this
      have hok1 : outcomes (k + 1 + n) = .ok b := by
        rwa [show k + (n + 1) = k + 1 + n by omega] at hok
      rw [ih r (k + 1) (a + 1) b (by omega) hpre1 hok1]
      refine Prod.ext (by simp) (Prod.ext ?_ ?_)
      · show 2 ^ a :: (List.range n).map (fun j => 2 ^ (a + 1 + j))
          = (List.range (n + 1)).map (fun j => 2 ^ (a + j))
        rw [List.range_succ_eq_map, List.map_cons, List.map_map]
        refine congrArg₂ _ (by rw [Nat.add_zero]) ?_
        refine List.map_congr_left ?_
        intro j _
        show 2 ^ (a + 1 + j) = 2 ^ (a + (j + 1))
        exact congrArg (fun e => (2 : Nat) ^ e) (by omega)
      · show Except.ok (k + 1 + n, b) = Except.ok (k + (n + 1), b)
        rw [show k + (n + 1) = k + 1 + n by omega]

theorem run_expo_backoff_allfail (outcomes : Nat → RawOutcome) :
    ∀ remaining k a, 1 ≤ remaining →
      (∀ j, j < remaining → outcomes (k + j) = .err5xx) →
      run_expo_backoff outcomes remaining k a
        = (remaining, (List.range (remaining - 1)).map (fun j => 2 ^ (a + j)),
           .error .err5xx) := by
  intro remaining
  induction remaining with
  | zero => intro k a h; omega
  | succ r ih =>
    intro k a _ hall
    have h0 : outcomes k = .err5xx := by
      have := hall 0 (by omega)
      rwa [Nat.add_zero] at this
    unfold run_expo_backoff
    rw [h0]
    cases r with
    | zero => simp
    | succ r1 =>
      rw [if_neg (by omega)]
      have hall1 : ∀ j, j < r1 + 1 → outcomes (k + 1 + j) = .err5xx := by
        intro j hj
        have := hall (j + 1) (by omega)
        rwa [show k + (j + 1) = k + 1 + j by omega] at this
      rw [ih (k + 1) (a + 1) (by omega) hall1]
      refine Prod.ext (by simp) (Prod.ext ?_ rfl)
      show 2 ^ a :: (List.range (r1 + 1 - 1)).map (fun j => 2 ^ (a + 1 + j))
        = (List.range (r1 + 1 + 1 - 1)).map (fun j => 2 ^ (a + j))
      rw [show r1 + 1 - 1 = r1 by omega, show r1 + 1 + 1 - 1 = r1 + 1 by omega]
      rw [List.range_succ_eq_map, List.map_cons, List.map_map]
      refine congrArg₂ _ (by rw [Nat.add_zero]) ?_
      refine List.map_congr_left ?_
      intro j _
      show 2 ^ (a + 1 + j) = 2 ^ (a + (j + 1))
      exact congrArg (fun e => (2 : Nat) ^ e) (by omega)

theorem run_request_ok_after_throttle (outcomes : Nat → RawOutcome) :
    ∀ n tries k, n < tries →
      (∀ j, j < n → outcomes (k + j) = .ok true) → outcomes (k + n) = .ok false →
      run_request_with_retry outcomes tries k
        = (n + 1, List.replicate n 4, .ok (k + n)) := by
  intro n
  induction n with
  | zero =>
    intro tries k hlt _ hok
    cases tries with
    | zero => omega
    | succ t =>
      rw [Nat.add_zero] at hok
      unfold run_request_with_retry
      rw [show client_request_raw outcomes k = (1, [], .ok (k, false)) from by
        have := run_expo_backoff_ok outcomes 0 5 k 0 false (by omega)
          (by omega) (by rwa [Nat.add_zero])
        simpa [client_request_raw] using this]
      simp
  | succ n ih =>
    intro tries k hlt hpre hok
    cases tries with
    | zero => omega
    | succ t =>
      have h0 : outcomes k = .ok true := by
        have := hpre 0 (by omega)
        rwa [Nat.add_zero] at this
      unfold run_request_with_retry
      rw [show client_request_raw outcomes k = (1, [], .ok (k, true)) from by
        have := run_expo_backoff_ok outcomes 0 5 k 0 true (by omega)
          (by omega) (by rwa [Nat.add_zero])
        simpa [client_request_raw] using this]
      dsimp only
      rw [if_pos rfl, if_neg (by omega)]
      have hpre1 : ∀ j, j < n → outcomes (k + 1 + j) = .ok true := by
        intro j hj
        have := hpre (j + 1) (by omega)
        rwa [show k + (j + 1) = k + 1 + j by omega] at this
      have hok1 : outcomes (k + 1 + n) = .ok false := by
        rwa [show k + (n + 1) = k + 1 + n by omega] at hok
      rw [ih t (k + 1) (by omega) hpre1 hok1]
      refine Prod.ext (by omega) (Prod.ext ?_ ?_)
      · show [] ++ 4 :: List.replicate n 4 = List.replicate (n + 1) 4
        simp [List.replicate_succ]
      · show Except.ok (k + 1 + n) = Except.ok (k + (n + 1))
        rw [show k + (n + 1) = k + 1 + n by omega]

theorem run_request_all_throttled (outcomes : Nat → RawOutcome) :
    ∀ tries k, 1 ≤ tries →
      (∀ j, j < tries → outcomes (k + j) = .ok true) →
      run_request_with_retry outcomes tries k
        = (tries, List.replicate (tries - 1) 4, .error .shortTermQuota) := by
  intro tries
  induction tries with
  | zero => intro k h; omega
  | succ t ih =>
    intro k _ hall
    have h0 : outcomes k = .ok true := by
      have := hall 0 (by omega)
      rwa [Nat.add_zero] at this
    unfold run_request_with_retry
    rw [show client_request_raw outcomes k = (1, [], .ok (k, true)) from by
      have := run_expo_backoff_ok outcomes 0 5 k 0 true (by omega)
        (by omega) (by rwa [Nat.add_zero])
      simpa [client_request_raw] using this]
    dsimp only
    rw [if_pos rfl]
    cases t with
    | zero => simp
    | succ t1 =>
      rw [if_neg (by omega)]
      have hall1 : ∀ j, j < t1 + 1 → outcomes (k + 1 + j) = .ok true := by
        intro j hj
        have := hall (j + 1) (by omega)
        rwa [show k + (j + 1) = k + 1 + j by omega] at this
      rw [ih (k + 1) (by omega) hall1]
      refine Prod.ext (by omega) (Prod.ext ?_ rfl)
      show [] ++ 4 :: List.replicate (t1 + 1 - 1) 4 = List.replicate (t1 + 1 + 1 - 1) 4
      simp [List.replicate_succ]

/-- C4: for every outbound API request, a 5xx/network failure is retried
with exponential backoff (delays 1, 2, 4, ... seconds) up to 5 attempts; a
4xx response is not retried and fails after the single attempt; and the
upstream short-term-throttle signal (error code 606) is retried with a
fixed 4-second interval (not exponential) up to 5 attempts. -/
theorem C4_retry_policy (outcomes : Nat → RawOutcome) :
    (∀ n b, n ≤ 4 → (∀ j, j < n → outcomes j = RawOutcome.err5xx) →
      outcomes n = RawOutcome.ok b →
      client_request_raw outcomes 0
        = (n + 1, (List.range n).map (fun j => 2 ^ j), .ok (n, b))) ∧
    ((∀ j, j < 5 → outcomes j = RawOutcome.err5xx) →
      client_request_raw outcomes 0 = (5, [1, 2, 4, 8], .error RawOutcome.err5xx)) ∧
    (outcomes 0 = RawOutcome.err4xx →
      client_request_raw outcomes 0 = (1, [], .error RawOutcome.err4xx)) ∧
    (∀ n, n ≤ 4 → (∀ j, j < n → outcomes j = RawOutcome.ok true) →
      outcomes n = RawOutcome.ok false →
      run_request outcomes = (n + 1, List.replicate n 4, .ok n)) ∧
    ((∀ j, j < 5 → outcomes j = RawOutcome.ok true) →
      run_request outcomes = (5, [4, 4, 4, 4], .error ReqError.shortTermQuota)) := by
  refine ⟨?_, ?_, ?_, ?_, ?_⟩
  · intro n b hn hpre hok
    have h := run_expo_backoff_ok outcomes n 5 0 0 b (by omega)
      (by intro j hj; simpa using hpre j hj) (by simpa using hok)
    rw [client_request_raw, h]
    simp
  · intro hall
    have h := run_expo_backoff_allfail outcomes 5 0 0 (by omega)
      (by intro j hj; simpa using hall j hj)
    rw [client_request_raw, h]
    refine Prod.ext rfl (Prod.ext ?_ rfl)
    decide
  · intro h4
    rw [client_request_raw]
    unfold run_expo_backoff
    rw [h4]
  · intro n hn hpre hok
    have h := run_request_ok_after_throttle outcomes n 5 0 (by omega)
      (by intro j hj; simpa using hpre j hj) (by simpa using hok)
    rw [run_request, h]
    simp
  · intro hall
    have h := run_request_all_throttled outcomes 5 0 (by omega)
      (by intro j hj; simpa using hall j hj)
    rw [run_request, h]
    decide

/-- C4 witness: two 5xx failures then success yields 3 attempts with delays
1 and 2 seconds; a 4xx fails on the single attempt; two 606 throttles then a
clean response yields 3 attempts with fixed 4-second delays. -/
theorem C4_witness :
    client_request_raw (fun j => if j < 2 then RawOutcome.err5xx else RawOutcome.ok false) 0
      = (3, [1, 2], .ok (2, false)) ∧
    client_request_raw (fun _ => RawOutcome.err4xx) 0 = (1, [], .error RawOutcome.err4xx) ∧
    run_request (fun j => if j < 2 then RawOutcome.ok true else RawOutcome.ok false)
      = (3, [4, 4], .ok 2) := by
  refine ⟨?_, ?_, ?_⟩
  · have h := (C4_retry_policy
      (fun j => if j < 2 then RawOutcome.err5xx else RawOutcome.ok false)).1
      2 false (by omega) (fun j hj => by interval_cases j <;> rfl) (by rfl)
    rw [h]
    decide
  · exact (C4_retry_policy (fun _ => RawOutcome.err4xx)).2.2.1 rfl
  · have h := (C4_retry_policy
      (fun j => if j < 2 then RawOutcome.ok true else RawOutcome.ok false)).2.2.2.1
      2 (by omega) (fun j hj => by interval_cases j <;> rfl) (by rfl)
    rw [h]
    decide

/-! ## Daily call budget (`Client.request` / `Client.update_calls_today`,
tap_marketo/client.py) -/

/-- The client's call-counting state: `calls_today` and the configured
`max_daily_calls` budget (default 0.8 * 50000 in the source). -/
structure ClientCounters where
  calls_today : Nat
  max_daily_calls : Nat
deriving Repr, DecidableEq

/-- Embeds the budget logic at the top of `Client.request`
(tap_marketo/client.py):

    if self.calls_today % 250 == 0:
        self.update_calls_today()          # queries the usage endpoint
    self.calls_today += 1
    if self.calls_today > self.max_daily_calls:
        raise ApiException("Exceeded daily quota of {} calls")
    resp = self._request(...)              # only reached past the check

`usage_total` is the total the usage endpoint reports when queried
(`update_calls_today` sets `calls_today` from it).  Returns the new
counters, whether the usage endpoint was queried, whether the requested
network call was issued, and the result; the outcome of the issued call
itself is orthogonal and modelled by `run_expo_backoff`. -/
def request_budget (c : ClientCounters) (usage_total : Nat) :
    ClientCounters × Bool × Bool × Except String Unit :=
  let queried := c.calls_today % 250 == 0
  let refreshed := if queried then usage_total else c.calls_today
  let ct := refreshed + 1
  if c.max_daily_calls < ct then
    ({ c with calls_today := ct }, queried, false, .error "Exceeded daily quota")
  else
    ({ c with calls_today := ct }, queried, true, .ok ())

/-- C9: the daily-call counter is incremented on every call that proceeds
(so on every successful call), it is refreshed from the upstream usage
endpoint exactly when the counter is a multiple of 250, and a call that
would put the counter past the max_daily_calls budget raises an error
without the requested network call being issued. -/
theorem C9_daily_call_budget (c : ClientCounters) (usage_total : Nat) :
    ((request_budget c usage_total).2.1 = true ↔ c.calls_today % 250 = 0) ∧
    (request_budget c usage_total).1.calls_today
      = (if c.calls_today % 250 = 0 then usage_total else c.calls_today) + 1 ∧
    ((request_budget c usage_total).2.2.2 = .ok () ↔
      (request_budget c usage_total).1.calls_today ≤ c.max_daily_calls) ∧
    ((request_budget c usage_total).2.2.1 = true ↔
      (request_budget c usage_total).2.2.2 = .ok ()) ∧
    (c.max_daily_calls < (request_budget c usage_total).1.calls_today →
      (request_budget c usage_total).2.2.1 = false ∧
      (request_budget c usage_total).2.2.2 = .error "Exceeded daily quota") := by
  unfold request_budget
  by_cases hq : c.calls_today % 250 = 0
  · by_cases hb : c.max_daily_calls <
        (if (c.calls_today % 250 == 0) = true then usage_total else c.calls_today) + 1
    · rw [if_pos hb]
      refine ⟨by simp [hq], by simp [hq], by simp [hq] at hb ⊢; omega, by simp,
        fun _ => ⟨rfl, rfl⟩⟩
    · rw [if_neg hb]
      refine ⟨by simp [hq], by simp [hq], by simp [hq] at hb ⊢; omega, by simp, ?_⟩
      intro hc
      simp [hq] at hb hc
      omega
  · by_cases hb : c.max_daily_calls <
        (if (c.calls_today % 250 == 0) = true then usage_total else c.calls_today) + 1
    · rw [if_pos hb]
      refine ⟨by simp [hq], by simp [hq], by simp [hq] at hb ⊢; omega, by simp, fun _ => ⟨rfl, rfl⟩⟩
    · rw [if_neg hb]
      refine ⟨by simp [hq], by simp [hq], by simp [hq] at hb ⊢; omega, by simp, ?_⟩
      intro hc
      simp [hq] at hb hc
      omega

/-- C9 witness: a call with the counter at 250 refreshes from the usage
endpoint; a call that would push the counter (14) past a budget of 10 is
refused with no network call issued. -/
theorem C9_witness :
    ((request_budget ⟨250, 40000⟩ 10).2.1 = true ↔ (250 : Nat) % 250 = 0) ∧
    (request_budget ⟨13, 10⟩ 0).2.2.1 = false ∧
    (request_budget ⟨13, 10⟩ 0).2.2.2 = .error "Exceeded daily quota" := by
  have h1 := C9_daily_call_budget ⟨250, 40000⟩ 10
  have h2 := C9_daily_call_budget ⟨13, 10⟩ 0
  refine ⟨h1.1, ?_, ?_⟩
  · exact (h2.2.2.2.2 (by rw [h2.2.1]; decide)).1
  · exact (h2.2.2.2.2 (by rw [h2.2.1]; decide)).2

/-! ## Stream orchestrator (`sync`, tap_marketo/sync.py) -/

/-- A catalog entry as the stream loop sees it: the tap_stream_id and the
stream-level `selected` metadata flag. -/
structure CatalogStream where
  tap_stream_id : String
  selected : Bool
deriving Repr, DecidableEq

/-- Messages the orchestrator emits: the currently_syncing mutation, a state
flush, and the (opaque) schema/record/state output of one per-stream sync. -/
inductive SyncAction where
  | setCurrentlySyncing (v : Option String)
  | flushState
  | streamAction (sid : String) (k : Nat)
deriving Repr, DecidableEq

/-- The orchestrator-visible state: the `currently_syncing` marker plus the
per-stream bookmark payload. -/
structure GState where
  currentlySyncing : Option String
  bookmarks : List (String × StreamState)
deriving Repr, DecidableEq

/-- The stream loop of `sync` (tap_marketo/sync.py):

    for stream in catalog["streams"]:
        if not metadata.get(mdata, (), 'selected'): continue
        if starting_stream and stream["tap_stream_id"] != starting_stream: continue
        starting_stream = None
        state = bookmarks.set_currently_syncing(state, stream["tap_stream_id"])
        singer.write_state(state)
        state, record_count = sync_<kind>(client, state, stream, ...)
        state = bookmarks.set_currently_syncing(state, None)
        singer.write_state(state)

`run_stream` abstracts the per-stream dispatch (sync_leads,
sync_activities, sync_paginated, sync_programs, sync_activity_types); the
theorems below hold for every dispatch.  The source has no try/except
around the dispatch, so a raised error propagates and ends the loop. -/
def sync_loop
    (run_stream : String → GState → Except SyncError (GState × List SyncAction)) :
    Option String → List CatalogStream → GState →
    List SyncAction × Except SyncError GState
  | _, [], st => ([], .ok st)
  | starting_stream, stream :: rest, st =>
    let skip : Bool := !stream.selected ||
      (match starting_stream with
       | some m => stream.tap_stream_id != m
       | Option.none => false)
    if skip then
      sync_loop run_stream starting_stream rest st
    else
      let st1 := { st with currentlySyncing := some stream.tap_stream_id }
      match run_stream stream.tap_stream_id st1 with
      | .error e =>
        ([.setCurrentlySyncing (some stream.tap_stream_id), .flushState], .error e)
      | .ok (st2, acts) =>
        let st3 := { st2 with currentlySyncing := Option.none }
        let rest_out := sync_loop run_stream Option.none rest st3
        (.setCurrentlySyncing (some stream.tap_stream_id) :: .flushState ::
            (acts ++ .setCurrentlySyncing Option.none :: .flushState :: rest_out.1),
         rest_out.2)

/-- Embeds `sync` (tap_marketo/sync.py): the starting stream is the
`currently_syncing` marker read from the input state. -/
def sync_tap
    (run_stream : String → GState → Except SyncError (GState × List SyncAction))
    (streams : List CatalogStream) (st : GState) :
    List SyncAction × Except SyncError GState :=
  sync_loop run_stream st.currentlySyncing streams st

theorem sync_loop_skips_all
    (run_stream : String → GState → Except SyncError (GState × List SyncAction))
    (m : String) :
    ∀ streams st, (∀ s ∈ streams, s.selected = true → s.tap_stream_id ≠ m) →
      sync_loop run_stream (some m) streams st = ([], .ok st) := by
  intro streams
  induction streams with
  | nil => intro st _; rfl
  | cons stream rest ih =>
    intro st hsel
    unfold sync_loop
    have hskip : (!stream.selected ||
        (match some m with
         | some m => stream.tap_stream_id != m
         | Option.none => false)) = true := by
      cases hs : stream.selected with
      | false => simp
      | true =>
        have := hsel stream (List.mem_cons_self _ _) hs
        simp [this]
    rw [hskip]
    dsimp only
    rw [if_pos rfl]
    exact ih st (fun s hs => hsel s (List.mem_cons_of_mem _ hs))

/-- C10: when the input state's currently_syncing marker names a stream that
matches no selected stream's tap_stream_id, the sync loop skips every
stream, emits no action at all (no schema, record, or checkpoint mutation),
terminates normally, and returns the state unchanged — with the stale
currently_syncing marker still set.  Holds for every per-stream dispatch
`run_stream`. -/
theorem C10_stale_marker_skips_all_streams
    (run_stream : String → GState → Except SyncError (GState × List SyncAction))
    (streams : List CatalogStream) (st : GState) (m : String)
    (hm : st.currentlySyncing = some m)
    (hsel : ∀ s ∈ streams, s.selected = true → s.tap_stream_id ≠ m) :
    sync_tap run_stream streams st = ([], .ok st) ∧
    st.currentlySyncing = some m := by
  refine ⟨?_, hm⟩
  unfold sync_tap
  rw [hm]
  exact sync_loop_skips_all run_stream m streams st hsel

/-- C10 witness: marker "gone_stream" matches neither of the two selected
streams, so the run emits nothing and returns the input state. -/
theorem C10_witness :
    sync_tap (fun sid st => .ok (st, [SyncAction.streamAction sid 0]))
      [⟨"leads", true⟩, ⟨"programs", true⟩]
      ⟨some "gone_stream", []⟩
      = ([], .ok ⟨some "gone_stream", []⟩) ∧
    (⟨some "gone_stream", []⟩ : GState).currentlySyncing = some "gone_stream" :=
  C10_stale_marker_skips_all_streams
    (fun sid st => .ok (st, [SyncAction.streamAction sid 0]))
    [⟨"leads", true⟩, ⟨"programs", true⟩]
    ⟨some "gone_stream", []⟩ "gone_stream" rfl
    (by
      intro s hs hsel
      simp only [List.mem_cons, List.not_mem_nil, or_false] at hs
      rcases hs with h | h <;> · subst h; decide)

/-- C6 counterexample: with two selected streams and the first raising
ExportFailed, the sync loop aborts: the error propagates, and the second
stream is never attempted (no action of it appears), refuting "streams not
yet started are still attempted". -/
theorem C6_counterexample :
    sync_tap
      (fun sid st =>
        if sid = "leads" then .error .exportFailed
        else .ok (st, [SyncAction.streamAction sid 0]))
      [⟨"leads", true⟩, ⟨"programs", true⟩]
      ⟨Option.none, []⟩
      = ([SyncAction.setCurrentlySyncing (some "leads"), SyncAction.flushState],
         .error .exportFailed) ∧
    SyncAction.streamAction "programs" 0 ∉
      [SyncAction.setCurrentlySyncing (some "leads"), SyncAction.flushState] := by
  exact ⟨by decide, by decide⟩

/-- C6 (amended): when the first stream the loop actually starts raises
ExportFailed, the error propagates out of the stream loop: the loop stops,
streams not yet started are NOT attempted, and the actions already emitted
stand — in particular the flushed state carries currently_syncing set to
the failing stream, so the next run resumes there (and wait_for_export has
already flushed the cleared export bookmarks before re-raising). -/
theorem C6_export_failure_aborts_loop
    (run_stream : String → GState → Except SyncError (GState × List SyncAction))
    (stream : CatalogStream) (rest : List CatalogStream) (st : GState)
    (e : SyncError)
    (hsel : stream.selected = true)
    (hcs : st.currentlySyncing = Option.none)
    (herr : run_stream stream.tap_stream_id
      { st with currentlySyncing := some stream.tap_stream_id } = .error e) :
    sync_tap run_stream (stream :: rest) st
      = ([SyncAction.setCurrentlySyncing (some stream.tap_stream_id),
          SyncAction.flushState], .error e) := by
  unfold sync_tap
  rw [hcs]
  unfold sync_loop
  have hskip : (!stream.selected ||
      (match (Option.none : Option String) with
       | some m => stream.tap_stream_id != m
       | Option.none => false)) = false := by
    simp [hsel]
  rw [hskip]
  dsimp only
  rw [if_neg (by simp)]
  rw [herr]

/-- C6 witness: the amended theorem at the counterexample's concrete data. -/
theorem C6_witness :
    sync_tap
      (fun sid st =>
        if sid = "lists" then .error .exportFailed
        else .ok (st, [SyncAction.streamAction sid 0]))
      [⟨"lists", true⟩, ⟨"campaigns", true⟩]
      ⟨Option.none, []⟩
      = ([SyncAction.setCurrentlySyncing (some "lists"), SyncAction.flushState],
         .error .exportFailed) :=
  C6_export_failure_aborts_loop
    (fun sid st =>
      if sid = "lists" then .error .exportFailed
      else .ok (st, [SyncAction.streamAction sid 0]))
    ⟨"lists", true⟩ [⟨"campaigns", true⟩] ⟨Option.none, []⟩ .exportFailed
    rfl rfl (by decide)

end TapMarketo
